import Mathlib

/-!
Shallow embedding of the service worker in static/sw.js: the cache data
model, the install handler, the activate handler and the fetch handler,
together with proofs of the specified properties.

Modelling conventions:
- a Cache is an association list from a request key to a stored Response;
  Cache.put replaces the entry for an existing key in place (last-write-wins),
  mirroring the Cache API;
- the CacheStorage is an association list from a cache name to a Cache, in
  creation order; caches.match scans the caches in that order;
- every cache operation in sw.js happens only for same-origin requests
  (the handler exits early otherwise) and install fetches same-origin paths,
  so the URL path uniquely identifies the request key; entries are keyed by
  the path string;
- network I/O is a parameter: a function from the fetched key (or Request)
  to Option Response, where none models a failed fetch;
- asynchronous store failures (a rejecting caches.match, caches.open or
  cache.put) are injected through a StoreFaults record, so that the
  error-handling paths of the source are part of the model;
- the source fixes CACHE_VERSION to "v1"; the handlers are parameterised by
  the version string because updating that constant is the supported cache
  invalidation mechanism the activation claims quantify over.
-/

namespace SW

/-- Response type classification as exposed by the platform: the source
checks response.type against the string "basic". -/
inductive ResponseType where
  | basic
  | cors
  | opaqueType
  | opaqueRedirect
  | errorType
  | defaultType
  deriving DecidableEq, Repr

/-- A captured response: status, status text, platform type, header list
and body, matching the fields the source reads or constructs. -/
structure Response where
  status : Nat
  statusText : String
  rtype : ResponseType
  headers : List (String × String)
  body : String
  deriving DecidableEq, Repr

/-- A URL split into its origin and its path; the source compares
url.origin against location.origin. -/
structure Url where
  origin : String
  path : String
  deriving DecidableEq, Repr

/-- An intercepted request: method, URL and the navigation flag
(request.mode === the navigate mode). -/
structure Request where
  method : String
  url : Url
  navigate : Bool
  deriving DecidableEq, Repr

/-- One cache: an association list from request key (URL path) to the
stored response. -/
abbrev Cache := List (String × Response)

/-- The cache storage: an association list from cache name to cache, kept
in creation order. -/
abbrev CacheStorage := List (String × Cache)

/-- CACHE_VERSION constant of sw.js line 3. -/
def CACHE_VERSION : String := "v1"

/-- CACHE_NAME of sw.js line 4: the version tag embedded in the namespace
name. -/
def CACHE_NAME (version : String) : String := "quang-hugo-" ++ version

/-- STATIC_ASSETS of sw.js lines 7-16: the ordered list of paths cached at
install time. -/
def STATIC_ASSETS : List String :=
  ["/", "/offline.html", "/favicon.png", "/logo.png", "/img/avatar.jpg",
   "/img/icons/icon-192.png", "/img/icons/icon-512.png", "/manifest.json"]

/-- Look a key up in one cache (cache.match): the first entry whose key
matches. -/
def cacheMatch (c : Cache) (key : String) : Option Response :=
  match c with
  | [] => none
  | e :: rest => if e.1 = key then some e.2 else cacheMatch rest key

/-- Write an entry into one cache (cache.put): replaces the entry for an
existing key in place, appends otherwise (last-write-wins). -/
def cachePut (c : Cache) (key : String) (r : Response) : Cache :=
  match c with
  | [] => [(key, r)]
  | e :: rest => if e.1 = key then (key, r) :: rest else e :: cachePut rest key r

/-- Look a cache up by name in the storage. -/
def getCache (st : CacheStorage) (name : String) : Option Cache :=
  match st with
  | [] => none
  | e :: rest => if e.1 = name then some e.2 else getCache rest name

/-- Replace the cache stored under a name, appending when absent. -/
def setCache (st : CacheStorage) (name : String) (c : Cache) : CacheStorage :=
  match st with
  | [] => [(name, c)]
  | e :: rest => if e.1 = name then (name, c) :: rest else e :: setCache rest name c

/-- The list of cache names (caches.keys). -/
def cacheKeys (st : CacheStorage) : List String := st.map (·.1)

/-- Delete a cache by name (caches.delete). -/
def cachesDelete (st : CacheStorage) (name : String) : CacheStorage :=
  st.filter (fun p => p.1 != name)

/-- Look a key up across all caches in creation order (caches.match with no
cache specified, as used on sw.js lines 70 and 99). -/
def cachesMatch (st : CacheStorage) (key : String) : Option Response :=
  match st with
  | [] => none
  | e :: rest =>
    match cacheMatch e.2 key with
    | some r => some r
    | none => cachesMatch rest key

/-- Open a cache by name (caches.open): returns the updated storage (the
cache is created empty when absent) and the cache contents. -/
def cachesOpen (st : CacheStorage) (name : String) : CacheStorage × Cache :=
  match getCache st name with
  | some c => (st, c)
  | none => (st ++ [(name, [])], [])

/-- cache.addAll over the asset list (sw.js line 25): fetch every URL; the
whole operation fails, writing nothing, when any fetch fails or any fetched
response has a non-ok status (outside 200-299 — Cache.addAll rejects such a
batch); otherwise every fetched response is put under its URL. -/
def addAll (net : String → Option Response) (urls : List String) (c : Cache) :
    Option Cache :=
  match urls with
  | [] => some c
  | u :: rest =>
    match net u with
    | none => none
    | some r =>
      if 200 ≤ r.status ∧ r.status < 300 then addAll net rest (cachePut c u r)
      else none

/-- Outcome of the install handler: the resulting storage and whether the
promise handed to event.waitUntil fulfilled (the install step succeeded). -/
structure InstallOutcome where
  storage : CacheStorage
  ok : Bool
  deriving DecidableEq, Repr

/-- Install handler of sw.js lines 19-33: open CACHE_NAME, addAll the
static assets, and catch any error (lines 27-29 log and swallow it, so the
waitUntil promise always fulfills; on failure the batch write is skipped
but the opened empty cache remains). -/
def installHandler (version : String) (net : String → Option Response)
    (st : CacheStorage) : InstallOutcome :=
  match addAll net STATIC_ASSETS (cachesOpen st (CACHE_NAME version)).2 with
  | some c2 =>
    ⟨setCache (cachesOpen st (CACHE_NAME version)).1 (CACHE_NAME version) c2, true⟩
  | none => ⟨(cachesOpen st (CACHE_NAME version)).1, true⟩

/-- Observable operations of the activate handler, listed in temporal
order of execution. -/
inductive ActOp where
  | deleteNS (name : String)
  | claimClients
  deriving DecidableEq, Repr

/-- Names of the stale caches the activate handler deletes: every name
that differs from the current CACHE_NAME (sw.js line 42). -/
def staleNames (version : String) (st : CacheStorage) : List String :=
  (cacheKeys st).filter (fun n => n != CACHE_NAME version)

/-- Outcome of the activate handler: the storage after the purge and the
trace of observable operations in the order they execute. -/
structure ActivateOutcome where
  storage : CacheStorage
  trace : List ActOp
  deriving DecidableEq, Repr

/-- Activate handler of sw.js lines 36-52. The handler body runs
synchronously: event.waitUntil registers the purge, whose caches.keys and
deletions are asynchronous I/O resumed only after the body returns, while
self.clients.claim() on line 51 is invoked directly in the body. Hence in
the trace the claim precedes every deletion. -/
def activateHandler (version : String) (st : CacheStorage) : ActivateOutcome :=
  ⟨(staleNames version st).foldl cachesDelete st,
   ActOp.claimClients :: (staleNames version st).map ActOp.deleteNS⟩

/-- Observable cache and network operations of the fetch handler, listed
in the order they are issued. -/
inductive SWOp where
  | opMatch (key : String)
  | opNetFetch (key : String)
  | opOpen (name : String)
  | opPut (name : String) (key : String)
  deriving DecidableEq, Repr

/-- What the fetch handler produces for the event: no answer (the handler
returned without calling event.respondWith), an answer, an answer that is
the absent result of a cache lookup (respondWith resolved with undefined),
or a rejected respondWith promise. -/
inductive FetchResult where
  | passThrough
  | respond (r : Response)
  | respondAbsent
  | respondError
  deriving DecidableEq, Repr

/-- Store-failure injection for one fetch event: whether caches.match on
the request (sw.js line 70), caches.open (line 89) or cache.put (line 91)
rejects when invoked. -/
structure StoreFaults where
  matchFault : Bool
  openFault : Bool
  putFault : Bool
  deriving DecidableEq, Repr

/-- The fault-free store. -/
def noFaults : StoreFaults := ⟨false, false, false⟩

/-- The synthetic error response constructed on sw.js lines 102-108. -/
def offlineResponse : Response :=
  ⟨503, "Service Unavailable", ResponseType.defaultType,
   [("Content-Type", "text/plain")], "Offline"⟩

/-- Outcome of one fetch event: the result handed to the page, the storage
after the event settles, and the trace of store and network operations. -/
structure FetchOutcome where
  result : FetchResult
  storage : CacheStorage
  trace : List SWOp
  deriving DecidableEq, Repr

/-- Fetch handler of sw.js lines 55-112. Non-GET (line 60) and
cross-origin (line 65) requests return before event.respondWith, touching
nothing. Otherwise caches.match(request) runs; its rejection has no catch
on the outer chain, so respondWith receives a rejected promise
(respondError). On a hit the cached response is the answer. On a miss the
network is fetched: an ineligible response (status not 200 or type not
basic, line 81) is returned uncached; an eligible one is cloned and
written back through the fire-and-forget caches.open(...).then(put) chain
(lines 89-92), whose own failure leaves the answer untouched — a rejecting
open writes nothing, a rejecting put leaves the cache opened (created
empty when absent) but writes no entry. On network failure a navigation
request is answered with caches.match of the offline path (line 99), and
any other request with the synthetic 503 response (lines 102-108). -/
def fetchHandler (selfOrigin version : String) (faults : StoreFaults)
    (net : Request → Option Response) (st : CacheStorage) (req : Request) :
    FetchOutcome :=
  if req.method ≠ "GET" then ⟨FetchResult.passThrough, st, []⟩
  else if req.url.origin ≠ selfOrigin then ⟨FetchResult.passThrough, st, []⟩
  else if faults.matchFault then
    ⟨FetchResult.respondError, st, [SWOp.opMatch req.url.path]⟩
  else
    match cachesMatch st req.url.path with
    | some cached =>
      ⟨FetchResult.respond cached, st, [SWOp.opMatch req.url.path]⟩
    | none =>
      match net req with
      | some response =>
        if ¬ (response.status = 200 ∧ response.rtype = ResponseType.basic) then
          ⟨FetchResult.respond response, st,
           [SWOp.opMatch req.url.path, SWOp.opNetFetch req.url.path]⟩
        else if faults.openFault then
          ⟨FetchResult.respond response, st,
           [SWOp.opMatch req.url.path, SWOp.opNetFetch req.url.path,
            SWOp.opOpen (CACHE_NAME version)]⟩
        else if faults.putFault then
          ⟨FetchResult.respond response, (cachesOpen st (CACHE_NAME version)).1,
           [SWOp.opMatch req.url.path, SWOp.opNetFetch req.url.path,
            SWOp.opOpen (CACHE_NAME version),
            SWOp.opPut (CACHE_NAME version) req.url.path]⟩
        else
          ⟨FetchResult.respond response,
           setCache (cachesOpen st (CACHE_NAME version)).1 (CACHE_NAME version)
             (cachePut (cachesOpen st (CACHE_NAME version)).2 req.url.path response),
           [SWOp.opMatch req.url.path, SWOp.opNetFetch req.url.path,
            SWOp.opOpen (CACHE_NAME version),
            SWOp.opPut (CACHE_NAME version) req.url.path]⟩
      | none =>
        if req.navigate then
          match cachesMatch st "/offline.html" with
          | some off =>
            ⟨FetchResult.respond off, st,
             [SWOp.opMatch req.url.path, SWOp.opNetFetch req.url.path,
              SWOp.opMatch "/offline.html"]⟩
          | none =>
            ⟨FetchResult.respondAbsent, st,
             [SWOp.opMatch req.url.path, SWOp.opNetFetch req.url.path,
              SWOp.opMatch "/offline.html"]⟩
        else
          ⟨FetchResult.respond offlineResponse, st,
           [SWOp.opMatch req.url.path, SWOp.opNetFetch req.url.path]⟩

/-! Basic lemmas about the store operations. -/

theorem cacheMatch_cachePut_self (c : Cache) (key : String) (r : Response) :
    cacheMatch (cachePut c key r) key = some r := by
  induction c with
  | nil => simp [cachePut, cacheMatch]
  | cons e rest ih =>
    by_cases h : e.1 = key
    · simp [cachePut, cacheMatch, h]
    · simp [cachePut, cacheMatch, h, ih]

theorem cacheMatch_cachePut_ne (c : Cache) (key k : String) (r : Response)
    (h : k ≠ key) : cacheMatch (cachePut c key r) k = cacheMatch c k := by
  induction c with
  | nil => simp [cachePut, cacheMatch, Ne.symm h]
  | cons e rest ih =>
    by_cases he : e.1 = key
    · simp [cachePut, cacheMatch, he, Ne.symm h]
    · simp only [cachePut, if_neg he, cacheMatch]
      by_cases hek : e.1 = k
      · simp [hek]
      · simp [hek, ih]

theorem addAll_eq_none {net : String → Option Response} {urls : List String}
    {u : String} (hu : u ∈ urls) (hn : net u = none) (c : Cache) :
    addAll net urls c = none := by
  induction urls generalizing c with
  | nil => cases hu
  | cons x rest ih =>
    rcases List.mem_cons.mp hu with h | h
    · subst h; simp [addAll, hn]
    · cases hx : net x with
      | none => simp [addAll, hx]
      | some r =>
        by_cases hok : 200 ≤ r.status ∧ r.status < 300
        · simpa [addAll, hx, hok] using ih h _
        · simp [addAll, hx, hok]

theorem addAll_isSome {net : String → Option Response} {urls : List String}
    (h : ∀ u ∈ urls, ∃ r, net u = some r ∧ 200 ≤ r.status ∧ r.status < 300)
    (c : Cache) : (addAll net urls c).isSome := by
  induction urls generalizing c with
  | nil => simp [addAll]
  | cons x rest ih =>
    obtain ⟨r, hr, hok⟩ := h x (List.mem_cons_self x rest)
    simpa [addAll, hr, hok] using
      ih (fun u hu => h u (List.mem_cons_of_mem _ hu)) _

theorem addAll_cacheMatch_not_mem {net : String → Option Response}
    {urls : List String} {c c' : Cache} {u : String} (hu : u ∉ urls)
    (h : addAll net urls c = some c') : cacheMatch c' u = cacheMatch c u := by
  induction urls generalizing c with
  | nil => simp [addAll] at h; subst h; rfl
  | cons x rest ih =>
    cases hnx : net x with
    | none => rw [addAll, hnx] at h; cases h
    | some r =>
      simp only [addAll, hnx] at h
      by_cases hok : 200 ≤ r.status ∧ r.status < 300
      · rw [if_pos hok] at h
        have hur : u ∉ rest := fun hr => hu (List.mem_cons_of_mem _ hr)
        have hux : u ≠ x := fun he => hu (he ▸ List.mem_cons_self x rest)
        rw [ih hur h]
        exact cacheMatch_cachePut_ne c x u r hux
      · rw [if_neg hok] at h; cases h

theorem addAll_cacheMatch_mem {net : String → Option Response}
    {urls : List String} {c c' : Cache} {u : String} (hu : u ∈ urls)
    (h : addAll net urls c = some c') : cacheMatch c' u = net u := by
  induction urls generalizing c with
  | nil => cases hu
  | cons x rest ih =>
    cases hnx : net x with
    | none => rw [addAll, hnx] at h; cases h
    | some r =>
      simp only [addAll, hnx] at h
      by_cases hok : 200 ≤ r.status ∧ r.status < 300
      · rw [if_pos hok] at h
        by_cases hur : u ∈ rest
        · exact ih hur h
        · have hux : u = x := by
            rcases List.mem_cons.mp hu with h1 | h1
            · exact h1
            · exact absurd h1 hur
          subst hux
          rw [addAll_cacheMatch_not_mem hur h, cacheMatch_cachePut_self, hnx]
      · rw [if_neg hok] at h; cases h

theorem getCache_setCache_self (st : CacheStorage) (name : String) (c : Cache) :
    getCache (setCache st name c) name = some c := by
  induction st with
  | nil => simp [setCache, getCache]
  | cons e rest ih =>
    by_cases h : e.1 = name
    · simp [setCache, getCache, h]
    · simp [setCache, getCache, h, ih]

theorem getCache_mem {st : CacheStorage} {n : String} {c : Cache}
    (h : getCache st n = some c) : (n, c) ∈ st := by
  induction st with
  | nil => cases h
  | cons e rest ih =>
    rw [getCache] at h
    by_cases he : e.1 = n
    · rw [if_pos he] at h
      injection h with h2
      have : e = (n, c) := by cases e; simp_all
      rw [← this]
      exact List.mem_cons_self e rest
    · rw [if_neg he] at h
      exact List.mem_cons_of_mem _ (ih h)

theorem mem_cachePut {c : Cache} {key : String} {r : Response}
    {p : String × Response} (h : p ∈ cachePut c key r) :
    p = (key, r) ∨ p ∈ c := by
  induction c with
  | nil => simp [cachePut] at h; left; exact h
  | cons e rest ih =>
    rw [cachePut] at h
    by_cases he : e.1 = key
    · rw [if_pos he] at h
      rcases List.mem_cons.mp h with h1 | h1
      · exact Or.inl h1
      · exact Or.inr (List.mem_cons_of_mem _ h1)
    · rw [if_neg he] at h
      rcases List.mem_cons.mp h with h1 | h1
      · exact Or.inr (h1 ▸ List.mem_cons_self e rest)
      · rcases ih h1 with h2 | h2
        · exact Or.inl h2
        · exact Or.inr (List.mem_cons_of_mem _ h2)

theorem mem_setCache {st : CacheStorage} {name : String} {c : Cache}
    {p : String × Cache} (h : p ∈ setCache st name c) :
    p = (name, c) ∨ p ∈ st := by
  induction st with
  | nil => simp [setCache] at h; left; exact h
  | cons e rest ih =>
    rw [setCache] at h
    by_cases he : e.1 = name
    · rw [if_pos he] at h
      rcases List.mem_cons.mp h with h1 | h1
      · exact Or.inl h1
      · exact Or.inr (List.mem_cons_of_mem _ h1)
    · rw [if_neg he] at h
      rcases List.mem_cons.mp h with h1 | h1
      · exact Or.inr (h1 ▸ List.mem_cons_self e rest)
      · rcases ih h1 with h2 | h2
        · exact Or.inl h2
        · exact Or.inr (List.mem_cons_of_mem _ h2)

theorem mem_cachesOpen_fst {st : CacheStorage} {name : String}
    {p : String × Cache} (h : p ∈ (cachesOpen st name).1) :
    p ∈ st ∨ p = (name, ([] : Cache)) := by
  unfold cachesOpen at h
  cases hg : getCache st name with
  | some c => rw [hg] at h; exact Or.inl h
  | none =>
    rw [hg] at h
    rcases List.mem_append.mp h with h1 | h1
    · exact Or.inl h1
    · exact Or.inr (by simpa using h1)

theorem mem_cachesOpen_snd {st : CacheStorage} {name : String}
    {p : String × Response} (h : p ∈ (cachesOpen st name).2) :
    ∃ c0, (name, c0) ∈ st ∧ p ∈ c0 := by
  unfold cachesOpen at h
  cases hg : getCache st name with
  | some c => rw [hg] at h; exact ⟨c, getCache_mem hg, h⟩
  | none => rw [hg] at h; cases h

theorem mem_cacheKeys (st : CacheStorage) (n : String) :
    n ∈ cacheKeys st ↔ ∃ c, (n, c) ∈ st := by
  unfold cacheKeys
  constructor
  · intro h
    obtain ⟨p, hp, he⟩ := List.mem_map.mp h
    exact ⟨p.2, by cases p; cases he; exact hp⟩
  · rintro ⟨c, hc⟩
    exact List.mem_map.mpr ⟨(n, c), hc, rfl⟩

theorem mem_foldl_cachesDelete (ns : List String) (st : CacheStorage)
    (p : String × Cache) :
    p ∈ ns.foldl cachesDelete st ↔ p ∈ st ∧ p.1 ∉ ns := by
  induction ns generalizing st with
  | nil => simp
  | cons n rest ih =>
    simp only [List.foldl_cons, ih, cachesDelete, List.mem_filter, bne_iff_ne,
      List.mem_cons, not_or]
    constructor
    · rintro ⟨⟨h1, h2⟩, h3⟩
      exact ⟨h1, h2, h3⟩
    · rintro ⟨h1, h2, h3⟩
      exact ⟨⟨h1, h2⟩, h3⟩

theorem cachesMatch_append_empty (st : CacheStorage) (name k : String) :
    cachesMatch (st ++ [(name, [])]) k = cachesMatch st k := by
  induction st with
  | nil => simp [cachesMatch, cacheMatch]
  | cons e rest ih =>
    cases h : cacheMatch e.2 k with
    | some r => simp [cachesMatch, h]
    | none => simp [cachesMatch, h, ih]

/-! Claim theorems for the lifecycle handlers. -/

/-- C1, counterexample: the claim states that a failing asset fetch makes
the install step report failure and not complete. In the source the
rejection of cache.addAll is caught on sw.js lines 27-29 and only logged,
so the promise handed to event.waitUntil fulfills: with a network on which
every fetch (in particular that of the listed asset "/") fails, the
install outcome still reports success. -/
theorem C1_counterexample :
    ("/" ∈ STATIC_ASSETS ∧ (fun _ => (none : Option Response)) "/" = none) ∧
      (installHandler "v1" (fun _ => none) []).ok = true := by
  exact ⟨⟨by simp [STATIC_ASSETS], rfl⟩, rfl⟩

/-- C1, amended: if the fetch of any URL in the static asset list fails,
no asset is written (the batch write is skipped, only the opened empty
namespace remains), the error is caught and swallowed at the install
handler, and the install step reports success; it is not retried. -/
theorem C1_install_error_swallowed (version : String)
    (net : String → Option Response) (st : CacheStorage)
    (h : ∃ u ∈ STATIC_ASSETS, net u = none) :
    installHandler version net st =
      ⟨(cachesOpen st (CACHE_NAME version)).1, true⟩ := by
  obtain ⟨u, hu, hn⟩ := h
  unfold installHandler
  rw [addAll_eq_none hu hn]

/-- C1, witness: the amended theorem applied to the all-failing network
and the empty storage. -/
theorem C1_install_error_swallowed_witness :
    (∃ u ∈ STATIC_ASSETS, (fun _ => (none : Option Response)) u = none) ∧
      installHandler "v1" (fun _ => none) [] =
        ⟨(cachesOpen [] (CACHE_NAME "v1")).1, true⟩ :=
  ⟨⟨"/", by simp [STATIC_ASSETS], rfl⟩,
   C1_install_error_swallowed "v1" (fun _ => none) []
     ⟨"/", by simp [STATIC_ASSETS], rfl⟩⟩

/-- C2, counterexample: the claim states that every stale-namespace
deletion completes before the controller claims the clients. In the
source self.clients.claim() on sw.js line 51 is invoked synchronously in
the handler body while the purge runs asynchronously under
event.waitUntil, so in the operation trace the claim precedes the
deletion: with a stale namespace quang-hugo-v0 present, the deletion sits
at position 1 and the claim at position 0, refuting that every deletion
position precedes every claim position. -/
theorem C2_counterexample :
    ¬ (∀ i j n,
        (activateHandler "v1"
            [("quang-hugo-v0", []), ("quang-hugo-v1", [])]).trace.get? i =
          some (ActOp.deleteNS n) →
        (activateHandler "v1"
            [("quang-hugo-v0", []), ("quang-hugo-v1", [])]).trace.get? j =
          some ActOp.claimClients →
        i < j) := by
  intro h
  exact absurd (h 1 0 "quang-hugo-v0" (by decide) (by decide)) (by decide)

/-- C2, amended: during activation clients.claim() is invoked first,
synchronously in the handler body, and every stale-namespace deletion
happens strictly after it (the purge runs under waitUntil and is not
sequenced before the claim). -/
theorem C2_claim_precedes_purge (version : String) (st : CacheStorage) :
    (activateHandler version st).trace.get? 0 = some ActOp.claimClients ∧
      ∀ i n, (activateHandler version st).trace.get? i =
        some (ActOp.deleteNS n) → 0 < i := by
  constructor
  · rfl
  · intro i n h
    cases i with
    | zero => simp [activateHandler] at h
    | succ k => exact Nat.succ_pos k

/-- C2, witness: the amended theorem applied to a storage holding one
stale namespace, whose deletion sits at position 1 of the trace. -/
theorem C2_claim_precedes_purge_witness :
    (activateHandler "v1" [("quang-hugo-v0", [])]).trace.get? 0 =
        some ActOp.claimClients ∧ 0 < 1 :=
  ⟨(C2_claim_precedes_purge "v1" [("quang-hugo-v0", [])]).1,
   (C2_claim_precedes_purge "v1" [("quang-hugo-v0", [])]).2 1 "quang-hugo-v0"
     (by decide)⟩

/-- C3: after the activate handler runs, a name is among the cache
namespaces exactly when it was there before and equals the current
CACHE_NAME: every differing namespace (in particular one tagged with an
older version) is deleted and the current one is kept. -/
theorem C3_purge_keeps_only_current (version : String) (st : CacheStorage)
    (n : String) :
    n ∈ cacheKeys (activateHandler version st).storage ↔
      n ∈ cacheKeys st ∧ n = CACHE_NAME version := by
  have hst : (activateHandler version st).storage =
      (staleNames version st).foldl cachesDelete st := rfl
  rw [hst, mem_cacheKeys]
  constructor
  · rintro ⟨c, hc⟩
    rw [mem_foldl_cachesDelete] at hc
    obtain ⟨hmem, hnot⟩ := hc
    have hkey : n ∈ cacheKeys st := (mem_cacheKeys st n).mpr ⟨c, hmem⟩
    refine ⟨hkey, ?_⟩
    by_contra hne
    exact hnot (by simp [staleNames, List.mem_filter, bne_iff_ne, hkey, hne])
  · rintro ⟨hkey, heq⟩
    obtain ⟨c, hc⟩ := (mem_cacheKeys st n).mp hkey
    refine ⟨c, ?_⟩
    rw [mem_foldl_cachesDelete]
    refine ⟨hc, ?_⟩
    simp [staleNames, List.mem_filter, bne_iff_ne, heq]

/-- C3, witness: on a storage holding a v0-tagged and the current
v1-tagged namespace, the current name remains after activation. -/
theorem C3_purge_keeps_only_current_witness :
    "quang-hugo-v1" ∈ cacheKeys
      (activateHandler "v1"
        [("quang-hugo-v0", []), ("quang-hugo-v1", [])]).storage :=
  (C3_purge_keeps_only_current "v1"
      [("quang-hugo-v0", []), ("quang-hugo-v1", [])] "quang-hugo-v1").mpr
    ⟨by simp [cacheKeys], rfl⟩

/-! Branch lemmas for the fetch handler: one lemma per control-flow path
of the listener on sw.js lines 55-112. -/

theorem fh_pass (so v : String) (faults : StoreFaults)
    (net : Request → Option Response) (st : CacheStorage) (req : Request)
    (h : req.method ≠ "GET" ∨ req.url.origin ≠ so) :
    fetchHandler so v faults net st req =
      ⟨FetchResult.passThrough, st, []⟩ := by
  unfold fetchHandler
  rcases h with h | h
  · rw [if_pos h]
  · by_cases hm : req.method ≠ "GET"
    · rw [if_pos hm]
    · rw [if_neg hm, if_pos h]

theorem fh_readFault (so v : String) (faults : StoreFaults)
    (net : Request → Option Response) (st : CacheStorage) (req : Request)
    (hm : req.method = "GET") (ho : req.url.origin = so)
    (hf : faults.matchFault = true) :
    fetchHandler so v faults net st req =
      ⟨FetchResult.respondError, st, [SWOp.opMatch req.url.path]⟩ := by
  unfold fetchHandler
  rw [if_neg (by simp [hm]), if_neg (by simp [ho]), if_pos hf]

theorem fh_hit (so v : String) (faults : StoreFaults)
    (net : Request → Option Response) (st : CacheStorage) (req : Request)
    (r : Response) (hm : req.method = "GET") (ho : req.url.origin = so)
    (hf : faults.matchFault = false)
    (hc : cachesMatch st req.url.path = some r) :
    fetchHandler so v faults net st req =
      ⟨FetchResult.respond r, st, [SWOp.opMatch req.url.path]⟩ := by
  unfold fetchHandler
  rw [if_neg (by simp [hm]), if_neg (by simp [ho]), if_neg (by simp [hf]), hc]

theorem fh_ineligible (so v : String) (faults : StoreFaults)
    (net : Request → Option Response) (st : CacheStorage) (req : Request)
    (r : Response) (hm : req.method = "GET") (ho : req.url.origin = so)
    (hf : faults.matchFault = false)
    (hc : cachesMatch st req.url.path = none) (hn : net req = some r)
    (hne : ¬ (r.status = 200 ∧ r.rtype = ResponseType.basic)) :
    fetchHandler so v faults net st req =
      ⟨FetchResult.respond r, st,
       [SWOp.opMatch req.url.path, SWOp.opNetFetch req.url.path]⟩ := by
  simp [fetchHandler, hm, ho, hf, hc, hn, hne]

theorem fh_eligible_ok (so v : String) (faults : StoreFaults)
    (net : Request → Option Response) (st : CacheStorage) (req : Request)
    (r : Response) (hm : req.method = "GET") (ho : req.url.origin = so)
    (hf : faults.matchFault = false)
    (hc : cachesMatch st req.url.path = none) (hn : net req = some r)
    (he : r.status = 200 ∧ r.rtype = ResponseType.basic)
    (hof : faults.openFault = false) (hpf : faults.putFault = false) :
    fetchHandler so v faults net st req =
      ⟨FetchResult.respond r,
       setCache (cachesOpen st (CACHE_NAME v)).1 (CACHE_NAME v)
         (cachePut (cachesOpen st (CACHE_NAME v)).2 req.url.path r),
       [SWOp.opMatch req.url.path, SWOp.opNetFetch req.url.path,
        SWOp.opOpen (CACHE_NAME v),
        SWOp.opPut (CACHE_NAME v) req.url.path]⟩ := by
  simp [fetchHandler, hm, ho, hf, hc, hn, he.1, he.2, hof, hpf]

theorem fh_eligible_openFault (so v : String) (faults : StoreFaults)
    (net : Request → Option Response) (st : CacheStorage) (req : Request)
    (r : Response) (hm : req.method = "GET") (ho : req.url.origin = so)
    (hf : faults.matchFault = false)
    (hc : cachesMatch st req.url.path = none) (hn : net req = some r)
    (he : r.status = 200 ∧ r.rtype = ResponseType.basic)
    (hof : faults.openFault = true) :
    fetchHandler so v faults net st req =
      ⟨FetchResult.respond r, st,
       [SWOp.opMatch req.url.path, SWOp.opNetFetch req.url.path,
        SWOp.opOpen (CACHE_NAME v)]⟩ := by
  simp [fetchHandler, hm, ho, hf, hc, hn, he.1, he.2, hof]

theorem fh_eligible_putFault (so v : String) (faults : StoreFaults)
    (net : Request → Option Response) (st : CacheStorage) (req : Request)
    (r : Response) (hm : req.method = "GET") (ho : req.url.origin = so)
    (hf : faults.matchFault = false)
    (hc : cachesMatch st req.url.path = none) (hn : net req = some r)
    (he : r.status = 200 ∧ r.rtype = ResponseType.basic)
    (hof : faults.openFault = false) (hpf : faults.putFault = true) :
    fetchHandler so v faults net st req =
      ⟨FetchResult.respond r, (cachesOpen st (CACHE_NAME v)).1,
       [SWOp.opMatch req.url.path, SWOp.opNetFetch req.url.path,
        SWOp.opOpen (CACHE_NAME v),
        SWOp.opPut (CACHE_NAME v) req.url.path]⟩ := by
  simp [fetchHandler, hm, ho, hf, hc, hn, he.1, he.2, hof, hpf]

theorem fh_netfail_nav_hit (so v : String) (faults : StoreFaults)
    (net : Request → Option Response) (st : CacheStorage) (req : Request)
    (off : Response) (hm : req.method = "GET") (ho : req.url.origin = so)
    (hf : faults.matchFault = false)
    (hc : cachesMatch st req.url.path = none) (hn : net req = none)
    (hnav : req.navigate = true)
    (hoff : cachesMatch st "/offline.html" = some off) :
    fetchHandler so v faults net st req =
      ⟨FetchResult.respond off, st,
       [SWOp.opMatch req.url.path, SWOp.opNetFetch req.url.path,
        SWOp.opMatch "/offline.html"]⟩ := by
  simp [fetchHandler, hm, ho, hf, hc, hn, hnav, hoff]

theorem fh_netfail_nav_miss (so v : String) (faults : StoreFaults)
    (net : Request → Option Response) (st : CacheStorage) (req : Request)
    (hm : req.method = "GET") (ho : req.url.origin = so)
    (hf : faults.matchFault = false)
    (hc : cachesMatch st req.url.path = none) (hn : net req = none)
    (hnav : req.navigate = true)
    (hoff : cachesMatch st "/offline.html" = none) :
    fetchHandler so v faults net st req =
      ⟨FetchResult.respondAbsent, st,
       [SWOp.opMatch req.url.path, SWOp.opNetFetch req.url.path,
        SWOp.opMatch "/offline.html"]⟩ := by
  simp [fetchHandler, hm, ho, hf, hc, hn, hnav, hoff]

theorem fh_netfail_nonnav (so v : String) (faults : StoreFaults)
    (net : Request → Option Response) (st : CacheStorage) (req : Request)
    (hm : req.method = "GET") (ho : req.url.origin = so)
    (hf : faults.matchFault = false)
    (hc : cachesMatch st req.url.path = none) (hn : net req = none)
    (hnav : req.navigate = false) :
    fetchHandler so v faults net st req =
      ⟨FetchResult.respond offlineResponse, st,
       [SWOp.opMatch req.url.path, SWOp.opNetFetch req.url.path]⟩ := by
  simp [fetchHandler, hm, ho, hf, hc, hn, hnav]

/-- Case analysis of the storage after a fetch event: it is unchanged, or
it is the storage after a bare caches.open (an empty namespace created by
a write-back whose put failed), or exactly one eligible network response
(status 200, type basic) has been written under the request key. -/
theorem fetchHandler_storage_cases (so v : String) (faults : StoreFaults)
    (net : Request → Option Response) (st : CacheStorage) (req : Request) :
    (fetchHandler so v faults net st req).storage = st ∨
    (fetchHandler so v faults net st req).storage =
      (cachesOpen st (CACHE_NAME v)).1 ∨
    ∃ r, net req = some r ∧ r.status = 200 ∧ r.rtype = ResponseType.basic ∧
      (fetchHandler so v faults net st req).storage =
        setCache (cachesOpen st (CACHE_NAME v)).1 (CACHE_NAME v)
          (cachePut (cachesOpen st (CACHE_NAME v)).2 req.url.path r) := by
  by_cases h1 : req.method = "GET"
  case neg =>
    rw [fh_pass so v faults net st req (Or.inl h1)]; left; rfl
  by_cases h2 : req.url.origin = so
  case neg =>
    rw [fh_pass so v faults net st req (Or.inr h2)]; left; rfl
  by_cases h3 : faults.matchFault = true
  · rw [fh_readFault so v faults net st req h1 h2 h3]; left; rfl
  have h3f : faults.matchFault = false := by simpa using h3
  cases hcm : cachesMatch st req.url.path with
  | some r => rw [fh_hit so v faults net st req r h1 h2 h3f hcm]; left; rfl
  | none =>
    cases hn : net req with
    | some resp =>
      by_cases he : resp.status = 200 ∧ resp.rtype = ResponseType.basic
      · by_cases hof : faults.openFault = true
        · rw [fh_eligible_openFault so v faults net st req resp h1 h2 h3f hcm
            hn he hof]
          left; rfl
        · have hoff : faults.openFault = false := by simpa using hof
          by_cases hpf : faults.putFault = true
          · rw [fh_eligible_putFault so v faults net st req resp h1 h2 h3f hcm
              hn he hoff hpf]
            right; left; rfl
          · have hpff : faults.putFault = false := by simpa using hpf
            rw [fh_eligible_ok so v faults net st req resp h1 h2 h3f hcm hn he
              hoff hpff]
            right; right; exact ⟨resp, rfl, he.1, he.2, rfl⟩
      · rw [fh_ineligible so v faults net st req resp h1 h2 h3f hcm hn he]
        left; rfl
    | none =>
      by_cases hnav : req.navigate = true
      · cases hoff : cachesMatch st "/offline.html" with
        | some off =>
          rw [fh_netfail_nav_hit so v faults net st req off h1 h2 h3f hcm hn
            hnav hoff]
          left; rfl
        | none =>
          rw [fh_netfail_nav_miss so v faults net st req h1 h2 h3f hcm hn hnav
            hoff]
          left; rfl
      · have hnavf : req.navigate = false := by simpa using hnav
        rw [fh_netfail_nonnav so v faults net st req h1 h2 h3f hcm hn hnavf]
        left; rfl

/-- cachesMatch is unaffected by the storage component of a caches.open:
opening either leaves the storage alone or appends an empty namespace. -/
theorem cachesMatch_cachesOpen_fst (st : CacheStorage) (name k : String) :
    cachesMatch (cachesOpen st name).1 k = cachesMatch st k := by
  unfold cachesOpen
  cases hg : getCache st name with
  | some c => rfl
  | none => exact cachesMatch_append_empty st name k

/-! Claim theorems for the fetch handler. -/

/-- C4: for every non-GET or cross-origin traffic event the interceptor
passes the request through untouched: it produces no answer, leaves the
storage unchanged, and its operation trace is empty, so no cache namespace
is read or written. -/
theorem C4_pass_through (so v : String) (faults : StoreFaults)
    (net : Request → Option Response) (st : CacheStorage) (req : Request)
    (h : req.method ≠ "GET" ∨ req.url.origin ≠ so) :
    fetchHandler so v faults net st req =
      ⟨FetchResult.passThrough, st, []⟩ :=
  fh_pass so v faults net st req h

/-- C4, witness: a POST request to the serving origin is passed through
untouched. -/
theorem C4_pass_through_witness :
    ((⟨"POST", ⟨"https://example.com", "/x"⟩, false⟩ : Request).method ≠ "GET" ∨
        (⟨"POST", ⟨"https://example.com", "/x"⟩, false⟩ : Request).url.origin ≠
          "https://example.com") ∧
      fetchHandler "https://example.com" "v1" noFaults (fun _ => none) []
          ⟨"POST", ⟨"https://example.com", "/x"⟩, false⟩ =
        ⟨FetchResult.passThrough, [], []⟩ :=
  ⟨Or.inl (by decide),
   C4_pass_through "https://example.com" "v1" noFaults (fun _ => none) []
     ⟨"POST", ⟨"https://example.com", "/x"⟩, false⟩ (Or.inl (by decide))⟩

/-- Stored response used by the C5 counterexample and witness. -/
def ex5Old : Response := ⟨200, "OK", ResponseType.basic, [], "old"⟩

/-- Network response used by the C5 counterexample. -/
def ex5New : Response := ⟨200, "OK", ResponseType.basic, [], "new"⟩

/-- A storage holding the key only in a stale v0-tagged namespace, used by
the C5 counterexample. -/
def ex5Store : CacheStorage := [("quang-hugo-v0", [("/x", ex5Old)])]

/-- The eligible request of the C5 counterexample. -/
def ex5Req : Request := ⟨"GET", ⟨"https://example.com", "/x"⟩, false⟩

/-- C5, counterexample: the claim states that the interceptor looks the
key up in the current namespace. The source uses caches.match with no
cache specified (sw.js line 70), which searches every namespace: with the
key stored only in a stale v0-tagged namespace and the current namespace
absent altogether, the handler still answers with the stale entry, issues
no network request, and does not answer with the network response the
current-namespace lookup of the claim would lead to. -/
theorem C5_counterexample :
    getCache ex5Store (CACHE_NAME "v1") = none ∧
      (fetchHandler "https://example.com" "v1" noFaults (fun _ => some ex5New)
          ex5Store ex5Req).result = FetchResult.respond ex5Old ∧
      ex5Old ≠ ex5New ∧
      SWOp.opNetFetch "/x" ∉
        (fetchHandler "https://example.com" "v1" noFaults (fun _ => some ex5New)
          ex5Store ex5Req).trace := by
  exact ⟨by decide, by decide, by decide, by decide⟩

/-- C5, amended: for every eligible (GET, same-origin) request, the
interceptor looks the key up across all cache namespaces (not only the
current one); if an entry is found in any namespace it answers with that
stored entry, leaves the storage unchanged, and issues no network
request (only the one lookup appears in the trace). -/
theorem C5_cache_hit_any_namespace (so v : String) (faults : StoreFaults)
    (net : Request → Option Response) (st : CacheStorage) (req : Request)
    (r : Response) (hm : req.method = "GET") (ho : req.url.origin = so)
    (hf : faults.matchFault = false)
    (hc : cachesMatch st req.url.path = some r) :
    fetchHandler so v faults net st req =
      ⟨FetchResult.respond r, st, [SWOp.opMatch req.url.path]⟩ :=
  fh_hit so v faults net st req r hm ho hf hc

/-- C5, witness: a hit in the current namespace is answered from the
store with no network operation. -/
theorem C5_cache_hit_any_namespace_witness :
    fetchHandler "https://example.com" "v1" noFaults (fun _ => none)
        [("quang-hugo-v1", [("/a", ex5Old)])]
        ⟨"GET", ⟨"https://example.com", "/a"⟩, false⟩ =
      ⟨FetchResult.respond ex5Old, [("quang-hugo-v1", [("/a", ex5Old)])],
       [SWOp.opMatch "/a"]⟩ :=
  C5_cache_hit_any_namespace "https://example.com" "v1" noFaults (fun _ => none)
    [("quang-hugo-v1", [("/a", ex5Old)])]
    ⟨"GET", ⟨"https://example.com", "/a"⟩, false⟩ ex5Old rfl rfl rfl (by decide)

/-- C6: every entry present in the storage after a fetch event was either
already present before the event, or is an eligible response: success
status (the 200 the source checks) and basic type; and an ineligible
network response is returned to the caller with the storage unchanged. -/
theorem C6_only_eligible_written (so v : String) (faults : StoreFaults)
    (net : Request → Option Response) (st : CacheStorage) (req : Request) :
    (∀ name c u r,
        (name, c) ∈ (fetchHandler so v faults net st req).storage →
        (u, r) ∈ c →
        (∃ c0, (name, c0) ∈ st ∧ (u, r) ∈ c0) ∨
          (r.status = 200 ∧ r.rtype = ResponseType.basic)) ∧
      (∀ r, net req = some r →
        ¬ (r.status = 200 ∧ r.rtype = ResponseType.basic) →
        req.method = "GET" → req.url.origin = so →
        faults.matchFault = false →
        cachesMatch st req.url.path = none →
        (fetchHandler so v faults net st req).result = FetchResult.respond r ∧
          (fetchHandler so v faults net st req).storage = st) := by
  constructor
  · intro name c u r hst hcmem
    rcases fetchHandler_storage_cases so v faults net st req with
      h | h | ⟨resp, hn, hs, ht, h⟩
    · rw [h] at hst
      exact Or.inl ⟨c, hst, hcmem⟩
    · rw [h] at hst
      rcases mem_cachesOpen_fst hst with h1 | h1
      · exact Or.inl ⟨c, h1, hcmem⟩
      · injection h1 with ha hb
        subst hb
        exact absurd hcmem (List.not_mem_nil _)
    · rw [h] at hst
      rcases mem_setCache hst with h1 | h1
      · injection h1 with ha hb
        subst hb
        rcases mem_cachePut hcmem with h2 | h2
        · injection h2 with hu2 hr2
          subst hr2
          exact Or.inr ⟨hs, ht⟩
        · obtain ⟨c0, hc0, hm0⟩ := mem_cachesOpen_snd h2
          exact Or.inl ⟨c0, by rw [ha]; exact hc0, hm0⟩
      · rcases mem_cachesOpen_fst h1 with h2 | h2
        · exact Or.inl ⟨c, h2, hcmem⟩
        · injection h2 with ha hb
          subst hb
          exact absurd hcmem (List.not_mem_nil _)
  · intro r hn hne hm ho hf hcm
    rw [fh_ineligible so v faults net st req r hm ho hf hcm hn hne]
    exact ⟨rfl, rfl⟩

/-- Ineligible network response used by the C6 witness. -/
def ex6Resp : Response := ⟨404, "Not Found", ResponseType.basic, [], "nope"⟩

/-- C6, witness: a 404 network response is returned to the caller and not
cached. -/
theorem C6_only_eligible_written_witness :
    (fetchHandler "https://example.com" "v1" noFaults (fun _ => some ex6Resp)
        [] ⟨"GET", ⟨"https://example.com", "/m"⟩, false⟩).result =
        FetchResult.respond ex6Resp ∧
      (fetchHandler "https://example.com" "v1" noFaults (fun _ => some ex6Resp)
        [] ⟨"GET", ⟨"https://example.com", "/m"⟩, false⟩).storage = [] :=
  (C6_only_eligible_written "https://example.com" "v1" noFaults
      (fun _ => some ex6Resp) [] ⟨"GET", ⟨"https://example.com", "/m"⟩, false⟩).2
    ex6Resp rfl (by decide) rfl rfl rfl rfl

/-- C7: for an eligible request with no cached entry whose network fetch
fails, a navigation request is answered with the stored offline document
(carrying its stored success status when the document was stored with
one), and a non-navigation request is answered with the synthetic
response: service-unavailable status 503 and a plain-text body. -/
theorem C7_network_failure_fallback (so v : String) (faults : StoreFaults)
    (net : Request → Option Response) (st : CacheStorage) (req : Request)
    (hm : req.method = "GET") (ho : req.url.origin = so)
    (hf : faults.matchFault = false)
    (hc : cachesMatch st req.url.path = none) (hn : net req = none) :
    (∀ off, req.navigate = true →
        cachesMatch st "/offline.html" = some off →
        (fetchHandler so v faults net st req).result =
            FetchResult.respond off ∧
          (off.status = 200 →
            ∃ r, (fetchHandler so v faults net st req).result =
                FetchResult.respond r ∧ r.status = 200)) ∧
      (req.navigate = false →
        (fetchHandler so v faults net st req).result =
            FetchResult.respond offlineResponse ∧
          offlineResponse.status = 503 ∧
          offlineResponse.headers = [("Content-Type", "text/plain")] ∧
          offlineResponse.body = "Offline") := by
  constructor
  · intro off hnav hoff
    rw [fh_netfail_nav_hit so v faults net st req off hm ho hf hc hn hnav hoff]
    exact ⟨rfl, fun hs => ⟨off, rfl, hs⟩⟩
  · intro hnav
    rw [fh_netfail_nonnav so v faults net st req hm ho hf hc hn hnav]
    exact ⟨rfl, rfl, rfl, rfl⟩

/-- Offline document used by the C7 witness. -/
def ex7Off : Response := ⟨200, "OK", ResponseType.basic, [], "offline page"⟩

/-- Storage of the C7 witness: the current namespace holds the offline
document. -/
def ex7Store : CacheStorage := [("quang-hugo-v1", [("/offline.html", ex7Off)])]

/-- C7, witness: a navigation request with an unreachable network is
answered with the stored offline document. -/
theorem C7_network_failure_fallback_witness :
    (fetchHandler "https://example.com" "v1" noFaults (fun _ => none) ex7Store
        ⟨"GET", ⟨"https://example.com", "/page"⟩, true⟩).result =
      FetchResult.respond ex7Off :=
  ((C7_network_failure_fallback "https://example.com" "v1" noFaults
        (fun _ => none) ex7Store ⟨"GET", ⟨"https://example.com", "/page"⟩, true⟩
        rfl rfl rfl (by decide) rfl).1
    ex7Off rfl (by decide)).1

/-- C8: when every static asset fetch succeeds with an ok-status response
(so cache.addAll writes the batch instead of rejecting it), each entry
written during install is returned unchanged by a lookup with the same key
in the same namespace: the installed namespace exists and maps every asset
URL to the response the network returned for it. -/
theorem C8_install_round_trip (version : String)
    (net : String → Option Response) (st : CacheStorage)
    (hnet : ∀ u ∈ STATIC_ASSETS,
      ∃ r, net u = some r ∧ 200 ≤ r.status ∧ r.status < 300)
    (u : String) (hu : u ∈ STATIC_ASSETS) :
    ∃ c, getCache (installHandler version net st).storage
          (CACHE_NAME version) = some c ∧
      cacheMatch c u = net u := by
  obtain ⟨c2, hc2⟩ := Option.isSome_iff_exists.mp
    (addAll_isSome hnet (cachesOpen st (CACHE_NAME version)).2)
  have hinst : installHandler version net st =
      ⟨setCache (cachesOpen st (CACHE_NAME version)).1 (CACHE_NAME version) c2,
       true⟩ := by
    unfold installHandler
    rw [hc2]
  rw [hinst]
  exact ⟨c2, getCache_setCache_self _ _ _, addAll_cacheMatch_mem hu hc2⟩

/-- Network of the C8 witness: every fetch succeeds with a basic 200
response whose body is the fetched path. -/
def ex8Net : String → Option Response :=
  fun u => some ⟨200, "OK", ResponseType.basic, [], u⟩

/-- C8, witness: after a fresh install the offline document round-trips
through the installed namespace. -/
theorem C8_install_round_trip_witness :
    ∃ c, getCache (installHandler "v1" ex8Net []).storage (CACHE_NAME "v1") =
          some c ∧
      cacheMatch c "/offline.html" = ex8Net "/offline.html" :=
  C8_install_round_trip "v1" ex8Net []
    (fun u _ => ⟨⟨200, "OK", ResponseType.basic, [], u⟩, rfl, by norm_num⟩)
    "/offline.html" (by decide)

/-- Network response used by the C9 counterexample. -/
def ex9Fresh : Response := ⟨200, "OK", ResponseType.basic, [], "fresh"⟩

/-- Request of the C9 counterexample. -/
def ex9Req : Request := ⟨"GET", ⟨"https://example.com", "/y"⟩, false⟩

/-- C9, counterexample: the claim states that a failed cache read degrades
to a cache miss, proceeding to the network without affecting the answer.
In the source the rejection of caches.match on sw.js line 70 has no catch
on the chain handed to event.respondWith, so the event errors: with a
rejecting read and a perfectly reachable network, the answer is the
rejection, no network request is issued, and the network response is not
served. -/
theorem C9_counterexample :
    (fetchHandler "https://example.com" "v1" ⟨true, false, false⟩
        (fun _ => some ex9Fresh) [] ex9Req).result = FetchResult.respondError ∧
      (fetchHandler "https://example.com" "v1" ⟨true, false, false⟩
        (fun _ => some ex9Fresh) [] ex9Req).result ≠
        FetchResult.respond ex9Fresh ∧
      SWOp.opNetFetch "/y" ∉
        (fetchHandler "https://example.com" "v1" ⟨true, false, false⟩
          (fun _ => some ex9Fresh) [] ex9Req).trace := by
  exact ⟨by decide, by decide, by decide⟩

/-- C9, amended: a failed write degrades locally — when the fire-and-forget
caches.open or cache.put of the write-back rejects, the answer equals the
fault-free answer and no entry becomes readable that was not readable
before — but a failed read does not: when caches.match rejects on an
eligible request, the event's answer is the rejection itself (the store
untouched), not a cache miss that proceeds to the network. -/
theorem C9_write_fault_local_read_fault_fatal (so v : String)
    (faults : StoreFaults) (net : Request → Option Response)
    (st : CacheStorage) (req : Request) :
    (faults.matchFault = false →
      (faults.openFault = true ∨ faults.putFault = true) →
      (fetchHandler so v faults net st req).result =
          (fetchHandler so v noFaults net st req).result ∧
        ∀ k, cachesMatch (fetchHandler so v faults net st req).storage k =
          cachesMatch st k) ∧
      (faults.matchFault = true → req.method = "GET" → req.url.origin = so →
        fetchHandler so v faults net st req =
          ⟨FetchResult.respondError, st, [SWOp.opMatch req.url.path]⟩) := by
  constructor
  · intro hf hw
    by_cases h1 : req.method = "GET"
    case neg =>
      rw [fh_pass so v faults net st req (Or.inl h1),
        fh_pass so v noFaults net st req (Or.inl h1)]
      exact ⟨rfl, fun k => rfl⟩
    by_cases h2 : req.url.origin = so
    case neg =>
      rw [fh_pass so v faults net st req (Or.inr h2),
        fh_pass so v noFaults net st req (Or.inr h2)]
      exact ⟨rfl, fun k => rfl⟩
    cases hcm : cachesMatch st req.url.path with
    | some r =>
      rw [fh_hit so v faults net st req r h1 h2 hf hcm,
        fh_hit so v noFaults net st req r h1 h2 rfl hcm]
      exact ⟨rfl, fun k => rfl⟩
    | none =>
      cases hn : net req with
      | some resp =>
        by_cases he : resp.status = 200 ∧ resp.rtype = ResponseType.basic
        · rw [fh_eligible_ok so v noFaults net st req resp h1 h2 rfl hcm hn he
            rfl rfl]
          by_cases hof : faults.openFault = true
          · rw [fh_eligible_openFault so v faults net st req resp h1 h2 hf hcm
              hn he hof]
            exact ⟨rfl, fun k => rfl⟩
          · have hoff : faults.openFault = false := by simpa using hof
            have hpf : faults.putFault = true := by
              rcases hw with hw | hw
              · exact absurd hw hof
              · exact hw
            rw [fh_eligible_putFault so v faults net st req resp h1 h2 hf hcm
              hn he hoff hpf]
            exact ⟨rfl, fun k => cachesMatch_cachesOpen_fst st (CACHE_NAME v) k⟩
        · rw [fh_ineligible so v faults net st req resp h1 h2 hf hcm hn he,
            fh_ineligible so v noFaults net st req resp h1 h2 rfl hcm hn he]
          exact ⟨rfl, fun k => rfl⟩
      | none =>
        by_cases hnav : req.navigate = true
        · cases hoff : cachesMatch st "/offline.html" with
          | some off =>
            rw [fh_netfail_nav_hit so v faults net st req off h1 h2 hf hcm hn
              hnav hoff,
              fh_netfail_nav_hit so v noFaults net st req off h1 h2 rfl hcm hn
              hnav hoff]
            exact ⟨rfl, fun k => rfl⟩
          | none =>
            rw [fh_netfail_nav_miss so v faults net st req h1 h2 hf hcm hn hnav
              hoff,
              fh_netfail_nav_miss so v noFaults net st req h1 h2 rfl hcm hn
              hnav hoff]
            exact ⟨rfl, fun k => rfl⟩
        · have hnavf : req.navigate = false := by simpa using hnav
          rw [fh_netfail_nonnav so v faults net st req h1 h2 hf hcm hn hnavf,
            fh_netfail_nonnav so v noFaults net st req h1 h2 rfl hcm hn hnavf]
          exact ⟨rfl, fun k => rfl⟩
  · intro hf hm ho
    exact fh_readFault so v faults net st req hm ho hf

/-- Network response used by the C9 witness. -/
def ex9Resp : Response := ⟨200, "OK", ResponseType.basic, [], "w"⟩

/-- C9, witness: with a rejecting cache.put the answer equals the
fault-free answer and the key stays unreadable. -/
theorem C9_write_fault_local_read_fault_fatal_witness :
    (fetchHandler "https://example.com" "v1" ⟨false, false, true⟩
          (fun _ => some ex9Resp) []
          ⟨"GET", ⟨"https://example.com", "/w"⟩, false⟩).result =
        (fetchHandler "https://example.com" "v1" noFaults
          (fun _ => some ex9Resp) []
          ⟨"GET", ⟨"https://example.com", "/w"⟩, false⟩).result ∧
      cachesMatch
          (fetchHandler "https://example.com" "v1" ⟨false, false, true⟩
            (fun _ => some ex9Resp) []
            ⟨"GET", ⟨"https://example.com", "/w"⟩, false⟩).storage "/w" =
        cachesMatch [] "/w" := by
  have h := (C9_write_fault_local_read_fault_fatal "https://example.com" "v1"
      ⟨false, false, true⟩ (fun _ => some ex9Resp) []
      ⟨"GET", ⟨"https://example.com", "/w"⟩, false⟩).1 rfl (Or.inr rfl)
  exact ⟨h.1, h.2 "/w"⟩

/-- C10: for a navigation request with no cached entry whose network fetch
fails, when the offline document is absent from every cache namespace the
answer is the absent result of the cache lookup — no synthetic response is
substituted on this branch. -/
theorem C10_offline_doc_absent (so v : String) (faults : StoreFaults)
    (net : Request → Option Response) (st : CacheStorage) (req : Request)
    (hm : req.method = "GET") (ho : req.url.origin = so)
    (hf : faults.matchFault = false)
    (hc : cachesMatch st req.url.path = none) (hn : net req = none)
    (hnav : req.navigate = true)
    (hoff : cachesMatch st "/offline.html" = none) :
    (fetchHandler so v faults net st req).result = FetchResult.respondAbsent := by
  rw [fh_netfail_nav_miss so v faults net st req hm ho hf hc hn hnav hoff]

/-- C10, witness: with an empty storage and an unreachable network, a
navigation request is answered with the absent lookup result. -/
theorem C10_offline_doc_absent_witness :
    (fetchHandler "https://example.com" "v1" noFaults (fun _ => none) []
        ⟨"GET", ⟨"https://example.com", "/p"⟩, true⟩).result =
      FetchResult.respondAbsent :=
  C10_offline_doc_absent "https://example.com" "v1" noFaults (fun _ => none) []
    ⟨"GET", ⟨"https://example.com", "/p"⟩, true⟩ rfl rfl rfl rfl rfl rfl rfl

end SW
